import Mathlib

/-!
Verification of the client-side arena game scene (src/src/game/scenes/GameScene.ts).

The TypeScript class GameScene is shallowly embedded here.  JavaScript Maps
become association lists in insertion order (a new key is appended at the
end, an existing key is updated in place), JS Sets become lists or Finsets,
JS 32-bit integer coercions are made explicit, and the physics overlap
tests — black boxes at the spec boundary — become Boolean oracles passed as
parameters.  Randomness (respawn coordinates) and the clock (Date.now())
are likewise parameters.
-/

namespace MopgArena

/-! ### Association-list maps (JS Map in insertion order) -/

/-- Lookup in an insertion-ordered association list, as JS Map.get. -/
def lookupMap {α : Type} : List (String × α) → String → Option α
  | [], _ => none
  | (k, v) :: rest, key => if k = key then some v else lookupMap rest key

/-- JS Map.set: replace the value at the existing key (a JS Map holds each
key once), else append the new key at the end, preserving insertion order. -/
def mapSet {α : Type} : List (String × α) → String → α → List (String × α)
  | [], key, v => [(key, v)]
  | (k, w) :: rest, key, v =>
    if k = key then (key, v) :: rest else (k, w) :: mapSet rest key v

/-- The key set of an association list (JS Map keys, in order). -/
def keysOf {α : Type} (m : List (String × α)) : List String :=
  m.map Prod.fst

theorem lookupMap_isSome_iff {α : Type} (m : List (String × α)) (key : String) :
    (lookupMap m key).isSome ↔ key ∈ keysOf m := by
  induction m with
  | nil => simp [lookupMap, keysOf]
  | cons p rest ih =>
    obtain ⟨k, v⟩ := p
    simp only [lookupMap, keysOf, List.map_cons, List.mem_cons] at ih ⊢
    by_cases hk : k = key
    · subst hk; simp
    · rw [if_neg hk, ih]
      constructor
      · exact Or.inr
      · rintro (h | h)
        · exact absurd h.symm hk
        · exact h

theorem lookupMap_eq_none_iff {α : Type} (m : List (String × α)) (key : String) :
    lookupMap m key = none ↔ key ∉ keysOf m := by
  rw [← lookupMap_isSome_iff, Option.isSome_iff_ne_none]
  tauto

theorem keysOf_mapSet_mem {α : Type} (m : List (String × α)) (key : String)
    (v : α) (id : String) :
    id ∈ keysOf (mapSet m key v) ↔ id ∈ keysOf m ∨ id = key := by
  induction m with
  | nil => simp [mapSet, keysOf]
  | cons p rest ih =>
    obtain ⟨k, w⟩ := p
    simp only [mapSet, keysOf, List.map_cons, List.mem_cons] at ih ⊢
    by_cases hk : k = key
    · subst hk
      rw [if_pos rfl]
      simp only [List.map_cons, List.mem_cons]
      tauto
    · rw [if_neg hk]
      simp only [List.map_cons, List.mem_cons]
      rw [ih]
      tauto

theorem lookupMap_mapSet_self {α : Type} (m : List (String × α)) (key : String)
    (v : α) : lookupMap (mapSet m key v) key = some v := by
  induction m with
  | nil => simp [mapSet, lookupMap]
  | cons p rest ih =>
    obtain ⟨k, w⟩ := p
    by_cases hk : k = key
    · subst hk; simp [mapSet, lookupMap]
    · simp [mapSet, hk, lookupMap, ih]

theorem lookupMap_mapSet_ne {α : Type} (m : List (String × α)) (key id : String)
    (v : α) (hne : id ≠ key) :
    lookupMap (mapSet m key v) id = lookupMap m id := by
  induction m with
  | nil =>
    simp only [mapSet, lookupMap]
    rw [if_neg (fun hc => hne hc.symm)]
  | cons p rest ih =>
    obtain ⟨k, w⟩ := p
    by_cases hk : k = key
    · subst hk
      simp only [mapSet, if_pos rfl, lookupMap]
      rw [if_neg (fun hc => hne hc.symm), if_neg (fun hc => hne hc.symm)]
    · simp only [mapSet, hk, if_neg, ne_eq, lookupMap]
      by_cases hkid : k = id
      · simp [hkid]
      · simp only [hkid, if_neg, ne_eq]
        exact ih

/-! ### 32-bit hash (GameScene.hashCode, lines 606-614) -/

/-- JS ToInt32 coercion: wrap into the signed 32-bit range. -/
def toInt32 (n : Int) : Int :=
  let r := n % 4294967296
  if r < 2147483648 then r else r - 4294967296

/-- One step of the rolling hash: hash = ((hash << 5) - hash) + char,
followed by the 32-bit truncation hash = hash & hash. -/
def hashStep (h : Int) (c : Nat) : Int :=
  toInt32 (toInt32 (h * 32) - h + c)

/-- GameScene.hashCode: polynomial rolling hash over the character codes,
with 32-bit wraparound at every step. -/
def hashCode (s : String) : Int :=
  s.data.foldl (fun h c => hashStep h c.toNat) 0

/-- Index freed on departure (updatePlayerStates line 672):
hashCode(id) % 8 + 1, with the JS remainder (sign of the dividend). -/
def releaseColorIndex (id : String) : Int :=
  Int.tmod (hashCode id) 8 + 1

/-- Allocation fallback (getUniqueColorIndex line 602):
Math.abs(hashCode(id) % 8) + 1. -/
def fallbackColorIndex (id : String) : Int :=
  ((Int.tmod (hashCode id) 8).natAbs : Int) + 1

/-! ### Color allocator (getUniqueColorIndex, lines 592-603) -/

/-- Candidate indices of the linear scan (for i = 1; i < 9; i++). -/
def colorScan : List Int := [1, 2, 3, 4, 5, 6, 7, 8]

/-- GameScene.getUniqueColorIndex: first unused index in 1..8 is taken and
recorded; if all eight are used, fall back to the hash-derived index
without recording it. -/
def getUniqueColorIndex (playerId : String) (used : Finset Int) :
    Int × Finset Int :=
  match colorScan.find? (fun i => decide (i ∉ used)) with
  | some i => (i, insert i used)
  | none => (fallbackColorIndex playerId, used)

/-- Allocating a sequence of ids with no intervening release. -/
def allocColors : List String → Finset Int → List Int
  | [], _ => []
  | id :: rest, used =>
    let r := getUniqueColorIndex id used
    r.1 :: allocColors rest r.2

/-! ### Data model -/

/-- One entry of a roster snapshot (the playerStates array): the account id
is always present, the remaining fields may be missing on the wire. -/
structure PlayerState where
  account : String
  x : Option Int
  y : Option Int
  name : Option String
  health : Option Int
  deriving DecidableEq, Repr

/-- A remote participant as tracked in the otherPlayers map.

Modelled from the spec: the Player entity class (src/game/entities/Player)
is not part of the provided source; per the spec a participant carries a
position, a display name, an integer health clamped at 0 or above, and a
color index. -/
structure Player where
  x : Int
  y : Int
  health : Int
  name : String
  colorIndex : Int
  deriving DecidableEq, Repr

/-- The local participant (distinguished singleton). flipX is the facing
used to derive the attack direction. -/
structure LocalPlayer where
  x : Int
  y : Int
  health : Int
  flipX : Bool
  deriving DecidableEq, Repr

/-- A live projectile: id, owner, and creation timestamp, the data the
GameScene update loop attaches and consults.  Position and velocity live in
the physics engine, consumed here only through the overlap oracles. -/
structure Projectile where
  id : String
  ownerId : String
  creationTime : Int
  deriving DecidableEq, Repr

/-- A server obstacle record; x or y may be missing. -/
structure ObstacleData where
  x : Option Int
  y : Option Int
  deriving DecidableEq, Repr

/-- Outbound server calls made through server.remoteFunction. -/
inductive Msg where
  | playerAttack (id : String) (x y direction : Int) (ownerId ownerName : String)
  | playerHit (targetId attackerId projectileId : String) (damage : Int)
  | playerDied (playerId killerId : String)
  | updatePlayerPosition (x y angle health : Int) (name : String)
  | collectPowerup (id : String)
  deriving DecidableEq, Repr

/-- The mutable fields of GameScene that the reconciliation and combat
logic reads and writes.  outbox records every remoteFunction call in
order. -/
structure Scene where
  myAccount : String
  playerName : String
  serverInitialized : Bool
  assetsLoaded : Bool
  obstaclesCreated : Bool
  attackCooldown : Bool
  attackHitbox : Bool
  player : LocalPlayer
  otherPlayers : List (String × Player)
  damagedPlayers : List (String × Int)
  usedColorIndices : Finset Int
  hitPlayers : List String
  obstacles : List (Int × Int)
  projectiles : List Projectile
  outbox : List Msg
  deriving DecidableEq

/-! ### Player entity operations

Modelled from the spec: the Player entity class is outside the provided
source.  Per the data model, health is an integer clamped at 0 or above;
moveTo writes the position; setHealth writes the (clamped) health; damage
subtracts and clamps; reset restores the initial state (health 100). -/

/-- Modelled from the spec: Player.moveTo writes the position directly
(last-write-wins, no smoothing). -/
def moveTo (p : Player) (x y : Int) : Player :=
  { p with x := x, y := y }

/-- Modelled from the spec: Player.setHealth stores the value, clamped to
stay at 0 or above. -/
def setHealth (p : Player) (h : Int) : Player :=
  { p with health := max h 0 }

/-- Modelled from the spec: Player.damage subtracts and clamps at 0. -/
def damageRemote (p : Player) (n : Int) : Player :=
  { p with health := max (p.health - n) 0 }

/-- Modelled from the spec: local Player.damage subtracts and clamps. -/
def damageLocal (p : LocalPlayer) (n : Int) : LocalPlayer :=
  { p with health := max (p.health - n) 0 }

/-- Modelled from the spec: Player.reset restores the initial state of the
local participant (full health). -/
def resetPlayer (p : LocalPlayer) : LocalPlayer :=
  { p with health := 100 }

/-! ### Death and hit handling (handlePlayerDeath lines 539-558,
handlePlayerHit lines 498-537) -/

/-- GameScene.handlePlayerDeath.  Only the local participant's death has an
effect: respawn at a fresh position (the engine's random draw is the rx,
ry parameters), reset, and notify the server.  Any other playerId falls
through with no state change and no message. -/
def handlePlayerDeath (s : Scene) (playerId killerId : String)
    (rx ry : Int) : Scene :=
  if playerId = s.myAccount then
    (if s.serverInitialized then
      { s with
          player := resetPlayer { s.player with x := rx, y := ry },
          outbox := s.outbox ++ [Msg.playerDied playerId killerId] }
    else { s with player := resetPlayer { s.player with x := rx, y := ry } })
  else s

/-- The damage-application stage of GameScene.handlePlayerHit: 10 damage to
the local player when targeted (checking for death), else to the tracked
remote target, recording its new health in the damagedPlayers overlay. -/
def applyHitDamage (s : Scene) (targetId attackerId : String)
    (rx ry : Int) : Scene :=
  if targetId = s.myAccount then
    (if (damageLocal s.player 10).health ≤ 0 then
      handlePlayerDeath { s with player := damageLocal s.player 10 }
        targetId attackerId rx ry
    else { s with player := damageLocal s.player 10 })
  else
    match lookupMap s.otherPlayers targetId with
    | some tp =>
      { s with
          otherPlayers := mapSet s.otherPlayers targetId (damageRemote tp 10),
          damagedPlayers :=
            mapSet s.damagedPlayers targetId (damageRemote tp 10).health }
    | none => s

/-- GameScene.handlePlayerHit: apply the damage stage, then notify the
server when initialized. -/
def handlePlayerHit (s : Scene) (targetId attackerId projectileId : String)
    (rx ry : Int) : Scene :=
  if (applyHitDamage s targetId attackerId rx ry).serverInitialized then
    { applyHitDamage s targetId attackerId rx ry with
        outbox := (applyHitDamage s targetId attackerId rx ry).outbox ++
          [Msg.playerHit targetId attackerId projectileId 10] }
  else applyHitDamage s targetId attackerId rx ry

/-! ### Roster snapshot processing (updatePlayerStates, lines 616-682) -/

/-- JS value-or-default for health: playerState.health is used unless it
is absent or falsy (0), in which case 100 is substituted. -/
def healthOr100 : Option Int → Int
  | some h => if h = 0 then 100 else h
  | none => 100

/-- JS value-or-default for the display name (empty string is falsy). -/
def nameOr : Option String → String
  | some n => if n = "" then "Unknown" else n
  | none => "Unknown"

/-- Processing of one snapshot entry (the forEach body, lines 619-665):
skip the local account; skip entries missing x or y; update a known player
(position, then health: the damagedPlayers overlay value when present,
else the snapshot health with 100 as fallback); create an unknown player
with a freshly allocated color index. -/
def applyEntry (s : Scene) (st : PlayerState) : Scene :=
  if st.account = s.myAccount then s
  else
    match st.x, st.y with
    | some x, some y =>
      (match lookupMap s.otherPlayers st.account with
       | some p =>
         { s with
             otherPlayers :=
               mapSet s.otherPlayers st.account
                 (setHealth (moveTo p x y)
                   (match lookupMap s.damagedPlayers st.account with
                    | some dh => dh
                    | none => healthOr100 st.health)) }
       | none =>
         { s with
             otherPlayers :=
               mapSet s.otherPlayers st.account
                 { x := x, y := y, health := 100,
                   name := nameOr st.name,
                   colorIndex :=
                     (getUniqueColorIndex st.account s.usedColorIndices).1 },
             usedColorIndices :=
               (getUniqueColorIndex st.account s.usedColorIndices).2 })
    | _, _ => s

/-- Removal of departed players (lines 667-681): every tracked player whose
id is not among the snapshot's accounts is destroyed; its color index is
recomputed by the hash formula and freed, and its damagedPlayers entry is
dropped. -/
def removeAbsent (s : Scene) (currentIds : List String) : Scene :=
  let removed :=
    keysOf (s.otherPlayers.filter (fun p => decide (p.1 ∉ currentIds)))
  { s with
      otherPlayers := s.otherPlayers.filter (fun p => decide (p.1 ∈ currentIds)),
      damagedPlayers := s.damagedPlayers.filter (fun p => decide (p.1 ∉ removed)),
      usedColorIndices :=
        removed.foldl (fun u id => u.erase (releaseColorIndex id))
          s.usedColorIndices }

/-- GameScene.updatePlayerStates: process every snapshot entry in order,
then remove the tracked players absent from the snapshot's id set. -/
def updatePlayerStates (s : Scene) (states : List PlayerState) : Scene :=
  removeAbsent (states.foldl applyEntry s) (states.map PlayerState.account)

/-! ### World bootstrap (createObstaclesFromServer lines 251-285,
createBorderObstacles lines 288-296) -/

/-- The deterministic border: for i = 0, 50, ..., 1950 the four blocks
(i, 0), (i, 2000), (0, i), (2000, i). -/
def borderObstacles : List (Int × Int) :=
  (List.range 40).foldr
    (fun k acc =>
      ((50 * k : Int), 0) :: ((50 * k : Int), 2000) ::
        (0, (50 * k : Int)) :: (2000, (50 * k : Int)) :: acc)
    []

/-- GameScene.createObstaclesFromServer: a no-op unless assets are loaded
and the bootstrap flag is still false; otherwise clear the group, build
the border, add one block per well-formed server entry (null entries and
entries missing x or y are skipped), and set the flag — permanently. -/
def createObstaclesFromServer (s : Scene) (data : List (Option ObstacleData)) :
    Scene :=
  if ¬s.assetsLoaded ∨ s.obstaclesCreated then s
  else
    { s with
        obstacles :=
          borderObstacles ++
            data.filterMap (fun d =>
              match d with
              | some od =>
                match od.x, od.y with
                | some x, some y => some (x, y)
                | _, _ => none
              | none => none),
        obstaclesCreated := true }

/-! ### Projectile pass (update, lines 225-247) -/

/-- Drop every live projectile with the given id. -/
def removeProjById (s : Scene) (id : String) : Scene :=
  { s with projectiles := s.projectiles.filter (fun q => decide (q.id ≠ id)) }

/-- First check of the projectile loop body (lines 227-233): a projectile
not owned by the local player that overlaps them routes a hit and is
destroyed. -/
def projHitPlayer (overlapPlayer : Projectile → Bool) (rx ry : Int)
    (s : Scene) (pr : Projectile) : Scene :=
  if pr.ownerId ≠ s.myAccount ∧ overlapPlayer pr then
    removeProjById (handlePlayerHit s s.myAccount pr.ownerId pr.id rx ry) pr.id
  else s

/-- Second check (lines 236-239): destroy on obstacle overlap. -/
def projHitObstacle (overlapObstacle : Projectile → Bool)
    (s : Scene) (pr : Projectile) : Scene :=
  if overlapObstacle pr then removeProjById s pr.id else s

/-- Third check (lines 241-246): destroy once strictly older than the
2000 ms lifetime; now stands for Date.now(). -/
def projExpire (now : Int) (s : Scene) (pr : Projectile) : Scene :=
  if now - pr.creationTime > 2000 then removeProjById s pr.id else s

/-- The per-projectile body of the update loop: the three checks in
source order. -/
def projectileStep (now : Int) (overlapPlayer overlapObstacle : Projectile → Bool)
    (rx ry : Int) (s : Scene) (pr : Projectile) : Scene :=
  projExpire now (projHitObstacle overlapObstacle
    (projHitPlayer overlapPlayer rx ry s pr) pr) pr

/-- The projectile section of GameScene.update: the loop body run over
every projectile live at the start of the tick. -/
def projectilePass (s : Scene) (now : Int)
    (overlapPlayer overlapObstacle : Projectile → Bool) (rx ry : Int) : Scene :=
  s.projectiles.foldl (projectileStep now overlapPlayer overlapObstacle rx ry) s

/-! ### Attack spawn and melee hit pass (handleSpacebarAttack lines
303-338, update lines 200-218) -/

/-- GameScene.handleSpacebarAttack: guard on initialization, set the
cooldown, clear the hit set for the new attack, make the hitbox live, and
send playerAttack.  now stands for Date.now(). -/
def handleSpacebarAttack (s : Scene) (now : Int) : Scene :=
  if ¬s.serverInitialized then s
  else
    { s with
        attackCooldown := true,
        hitPlayers := [],
        attackHitbox := true,
        outbox := s.outbox ++
          [Msg.playerAttack ("attack_" ++ s.myAccount ++ "_" ++ toString now)
            s.player.x s.player.y (if s.player.flipX then -1 else 1)
            s.myAccount s.playerName] }

/-- One iteration of the melee overlap loop for the tracked player id:
skip ids already hit by the current attack, otherwise on overlap record
the id in hitPlayers and route the hit.  Returns the scene together with
the ids granted so far this pass. -/
def meleeStep (ov : String → Bool) (rx ry : Int)
    (acc : Scene × List String) (id : String) : Scene × List String :=
  if id ∈ acc.1.hitPlayers then acc
  else if ov id then
    (handlePlayerHit { acc.1 with hitPlayers := acc.1.hitPlayers ++ [id] }
      id acc.1.myAccount "melee_attack" rx ry, acc.2 ++ [id])
  else acc

/-- The melee section of GameScene.update: when the hitbox is live, run
the overlap check over every tracked player. -/
def meleePass (s : Scene) (ov : String → Bool) (rx ry : Int) :
    Scene × List String :=
  if s.attackHitbox then (keysOf s.otherPlayers).foldl (meleeStep ov rx ry) (s, [])
  else (s, [])

/-- A run of consecutive ticks of the melee pass, one overlap oracle per
tick, accumulating every granted hit. -/
def meleeTicks (rx ry : Int) : Scene → List (String → Bool) → Scene × List String
  | s, [] => (s, [])
  | s, ov :: rest =>
    let r1 := meleePass s ov rx ry
    let r2 := meleeTicks rx ry r1.1 rest
    (r2.1, r1.2 ++ r2.2)

/-! ### Generic fold lemmas -/

theorem foldl_invariant {σ α : Type} (P : σ → Prop) (f : σ → α → σ) :
    ∀ (l : List α) (s : σ), (∀ s2 a, a ∈ l → P s2 → P (f s2 a)) → P s →
      P (l.foldl f s) := by
  intro l
  induction l with
  | nil => intro s _ hs; simpa using hs
  | cons a rest ih =>
    intro s hstep hs
    simp only [List.foldl_cons]
    exact ih (f s a) (fun s2 b hb => hstep s2 b (List.mem_cons_of_mem a hb))
      (hstep s a (List.mem_cons_self a rest) hs)

theorem foldl_preserve {σ α β : Type} (f : σ → α → σ) (g : σ → β)
    (h : ∀ s a, g (f s a) = g s) :
    ∀ (l : List α) (s : σ), g (l.foldl f s) = g s := by
  intro l
  induction l with
  | nil => intro s; rfl
  | cons a rest ih =>
    intro s
    simp only [List.foldl_cons]
    rw [ih, h]

/-! ### Claim C8: the index freed on release versus the allocation
fallback formula -/

theorem mem_colorScan_iff (i : Int) : i ∈ colorScan ↔ 1 ≤ i ∧ i ≤ 8 := by
  simp only [colorScan, List.mem_cons, List.not_mem_nil, or_false]
  omega

set_option maxRecDepth 40000 in
/-- C8 counterexample.  For the id made of seven letters a, the rolling
hash is negative (-1236860927), so the index recomputed on release,
hashCode(id) % 8 + 1 = -6, differs from the allocation fallback
Math.abs(hashCode(id) % 8) + 1 = 8: release does not recompute the same
index as the allocation fallback formula. -/
theorem release_recompute_cex :
    releaseColorIndex "aaaaaaa" = -6 ∧ fallbackColorIndex "aaaaaaa" = 8 ∧
      releaseColorIndex "aaaaaaa" ≠ fallbackColorIndex "aaaaaaa" := by
  refine ⟨by decide, by decide, by decide⟩

/-- C8 amended.  The index freed on departure is hashCode(id) % 8 + 1
with the sign-preserving JS remainder and no absolute value; it agrees
with the allocation fallback formula abs(hashCode(id) % 8) + 1 exactly
when that remainder is non-negative (in particular whenever the hash is
non-negative), and differs whenever the hash has a negative remainder. -/
theorem release_recompute_amended (id : String) :
    releaseColorIndex id = fallbackColorIndex id ↔
      0 ≤ Int.tmod (hashCode id) 8 := by
  unfold releaseColorIndex fallbackColorIndex
  generalize Int.tmod (hashCode id) 8 = t
  omega

/-- C8 amended witness: for the single-letter id a (hash 97, remainder 1)
the two formulas agree, as the amended equivalence states. -/
theorem release_recompute_amended_witness :
    releaseColorIndex "a" = fallbackColorIndex "a" ↔
      0 ≤ Int.tmod (hashCode "a") 8 :=
  release_recompute_amended "a"

/-! ### Claim C7: allocation of at most eight ids without release -/

theorem icc_one_eight_card : (Finset.Icc (1 : Int) 8).card = 8 := by
  rw [Int.card_Icc]
  rfl

theorem allocColors_invariant :
    ∀ (ids : List String) (used : Finset Int),
      used ⊆ Finset.Icc (1 : Int) 8 → used.card + ids.length ≤ 8 →
      (allocColors ids used).Nodup ∧
        ∀ i ∈ allocColors ids used, 1 ≤ i ∧ i ≤ 8 ∧ i ∉ used := by
  intro ids
  induction ids with
  | nil => intro used _ _; simp [allocColors]
  | cons id rest ih =>
    intro used hsub hcard
    have hlt : used.card < 8 := by
      simp only [List.length_cons] at hcard
      omega
    obtain ⟨j, hjfind⟩ :
        ∃ j, colorScan.find? (fun i => decide (i ∉ used)) = some j := by
      cases hfind : colorScan.find? (fun i => decide (i ∉ used)) with
      | some j => exact ⟨j, rfl⟩
      | none =>
        exfalso
        have hall := List.find?_eq_none.mp hfind
        have hsub2 : Finset.Icc (1 : Int) 8 ⊆ used := by
          intro x hx
          have hxs : x ∈ colorScan := by
            rw [mem_colorScan_iff]
            exact Finset.mem_Icc.mp hx
          have := hall x hxs
          simp only [decide_eq_true_eq] at this
          tauto
        have := Finset.card_le_card hsub2
        rw [icc_one_eight_card] at this
        omega
    have hjmem : j ∈ colorScan := List.mem_of_find?_eq_some hjfind
    have hjused : j ∉ used := by
      have := List.find?_some hjfind
      simpa using this
    have hjrange : 1 ≤ j ∧ j ≤ 8 := (mem_colorScan_iff j).mp hjmem
    have halloc :
        allocColors (id :: rest) used = j :: allocColors rest (insert j used) := by
      simp only [allocColors, getUniqueColorIndex, hjfind]
    have hsub2 : insert j used ⊆ Finset.Icc (1 : Int) 8 := by
      intro x hx
      rcases Finset.mem_insert.mp hx with hx | hx
      · subst hx; exact Finset.mem_Icc.mpr hjrange
      · exact hsub hx
    have hcard2 : (insert j used).card + rest.length ≤ 8 := by
      rw [Finset.card_insert_of_not_mem hjused]
      simp only [List.length_cons] at hcard
      omega
    obtain ⟨hnd, hbounds⟩ := ih (insert j used) hsub2 hcard2
    rw [halloc]
    constructor
    · refine List.nodup_cons.mpr ⟨?_, hnd⟩
      intro hjmem2
      exact (hbounds j hjmem2).2.2 (Finset.mem_insert_self j used)
    · intro i hi
      rcases List.mem_cons.mp hi with hi | hi
      · subst hi; exact ⟨hjrange.1, hjrange.2, hjused⟩
      · obtain ⟨h1, h2, h3⟩ := hbounds i hi
        exact ⟨h1, h2, fun hc => h3 (Finset.mem_insert_of_mem hc)⟩

/-- C7.  Starting from the fresh allocator, any sequence of at most eight
distinct ids allocated through getUniqueColorIndex with no intervening
release receives pairwise distinct color indices, all in the range 1..8. -/
theorem color_alloc_distinct (ids : List String) (_hnd : ids.Nodup)
    (hlen : ids.length ≤ 8) :
    (allocColors ids ∅).Nodup ∧ ∀ i ∈ allocColors ids ∅, 1 ≤ i ∧ i ≤ 8 := by
  have h := allocColors_invariant ids ∅ (by simp) (by simpa using hlen)
  exact ⟨h.1, fun i hi => ⟨(h.2 i hi).1, (h.2 i hi).2.1⟩⟩

/-- C7 witness: three concrete ids receive the distinct indices 1, 2, 3. -/
theorem color_alloc_distinct_witness :
    (allocColors ["a", "b", "c"] ∅).Nodup ∧
      ∀ i ∈ allocColors ["a", "b", "c"] ∅, 1 ≤ i ∧ i ≤ 8 :=
  color_alloc_distinct ["a", "b", "c"] (by decide) (by decide)

/-! ### Frame lemmas: which fields each operation leaves untouched -/

theorem handlePlayerDeath_frame (s : Scene) (p k : String) (rx ry : Int) :
    (handlePlayerDeath s p k rx ry).projectiles = s.projectiles ∧
    (handlePlayerDeath s p k rx ry).hitPlayers = s.hitPlayers ∧
    (handlePlayerDeath s p k rx ry).otherPlayers = s.otherPlayers ∧
    (handlePlayerDeath s p k rx ry).damagedPlayers = s.damagedPlayers ∧
    (handlePlayerDeath s p k rx ry).myAccount = s.myAccount ∧
    (handlePlayerDeath s p k rx ry).serverInitialized = s.serverInitialized ∧
    (handlePlayerDeath s p k rx ry).obstaclesCreated = s.obstaclesCreated ∧
    (handlePlayerDeath s p k rx ry).attackHitbox = s.attackHitbox ∧
    (handlePlayerDeath s p k rx ry).usedColorIndices = s.usedColorIndices := by
  unfold handlePlayerDeath
  split
  · split <;> (repeat' apply And.intro) <;> rfl
  · (repeat' apply And.intro) <;> rfl

theorem applyHitDamage_frame (s : Scene) (tid aid : String) (rx ry : Int) :
    (applyHitDamage s tid aid rx ry).projectiles = s.projectiles ∧
    (applyHitDamage s tid aid rx ry).hitPlayers = s.hitPlayers ∧
    (applyHitDamage s tid aid rx ry).myAccount = s.myAccount ∧
    (applyHitDamage s tid aid rx ry).serverInitialized = s.serverInitialized ∧
    (applyHitDamage s tid aid rx ry).obstaclesCreated = s.obstaclesCreated ∧
    (applyHitDamage s tid aid rx ry).attackHitbox = s.attackHitbox ∧
    (applyHitDamage s tid aid rx ry).usedColorIndices = s.usedColorIndices := by
  unfold applyHitDamage
  split
  · split
    · have h := handlePlayerDeath_frame
        { s with player := damageLocal s.player 10 } tid aid rx ry
      exact ⟨h.1, h.2.1, h.2.2.2.2.1, h.2.2.2.2.2.1, h.2.2.2.2.2.2.1,
        h.2.2.2.2.2.2.2.1, h.2.2.2.2.2.2.2.2⟩
    · (repeat' apply And.intro) <;> rfl
  · split <;> ((repeat' apply And.intro) <;> rfl)

theorem handlePlayerHit_frame (s : Scene) (tid aid pjid : String) (rx ry : Int) :
    (handlePlayerHit s tid aid pjid rx ry).projectiles = s.projectiles ∧
    (handlePlayerHit s tid aid pjid rx ry).hitPlayers = s.hitPlayers ∧
    (handlePlayerHit s tid aid pjid rx ry).myAccount = s.myAccount ∧
    (handlePlayerHit s tid aid pjid rx ry).serverInitialized = s.serverInitialized ∧
    (handlePlayerHit s tid aid pjid rx ry).obstaclesCreated = s.obstaclesCreated ∧
    (handlePlayerHit s tid aid pjid rx ry).attackHitbox = s.attackHitbox ∧
    (handlePlayerHit s tid aid pjid rx ry).usedColorIndices = s.usedColorIndices := by
  have h := applyHitDamage_frame s tid aid rx ry
  unfold handlePlayerHit
  split
  · exact ⟨h.1, h.2.1, h.2.2.1, h.2.2.2.1, h.2.2.2.2.1, h.2.2.2.2.2.1,
      h.2.2.2.2.2.2⟩
  · exact h

theorem applyEntry_frame (s : Scene) (st : PlayerState) :
    (applyEntry s st).myAccount = s.myAccount ∧
    (applyEntry s st).damagedPlayers = s.damagedPlayers ∧
    (applyEntry s st).obstaclesCreated = s.obstaclesCreated ∧
    (applyEntry s st).player = s.player ∧
    (applyEntry s st).serverInitialized = s.serverInitialized ∧
    (applyEntry s st).projectiles = s.projectiles ∧
    (applyEntry s st).hitPlayers = s.hitPlayers ∧
    (applyEntry s st).outbox = s.outbox := by
  unfold applyEntry
  split
  · (repeat' apply And.intro) <;> rfl
  · split <;> try ((repeat' apply And.intro) <;> rfl)
    split <;> ((repeat' apply And.intro) <;> rfl)

theorem removeAbsent_frame (s : Scene) (ids : List String) :
    (removeAbsent s ids).myAccount = s.myAccount ∧
    (removeAbsent s ids).obstaclesCreated = s.obstaclesCreated ∧
    (removeAbsent s ids).player = s.player ∧
    (removeAbsent s ids).outbox = s.outbox :=
  ⟨rfl, rfl, rfl, rfl⟩

theorem foldl_applyEntry_myAccount (states : List PlayerState) (s : Scene) :
    (states.foldl applyEntry s).myAccount = s.myAccount :=
  foldl_preserve applyEntry Scene.myAccount
    (fun s2 st => (applyEntry_frame s2 st).1) states s

theorem foldl_applyEntry_damaged (states : List PlayerState) (s : Scene) :
    (states.foldl applyEntry s).damagedPlayers = s.damagedPlayers :=
  foldl_preserve applyEntry Scene.damagedPlayers
    (fun s2 st => (applyEntry_frame s2 st).2.1) states s

/-! ### Example scenes used by witnesses and counterexamples -/

/-- A freshly initialized scene with no remote players tracked. -/
def sceneA : Scene :=
  { myAccount := "me", playerName := "Me", serverInitialized := true,
    assetsLoaded := true, obstaclesCreated := false, attackCooldown := false,
    attackHitbox := false,
    player := { x := 0, y := 0, health := 100, flipX := false },
    otherPlayers := [], damagedPlayers := [], usedColorIndices := ∅,
    hitPlayers := [], obstacles := [], projectiles := [], outbox := [] }

/-- An overlap oracle that reports no collision. -/
def noOverlap : Projectile → Bool := fun _ => false

/-- A projectile created at time 0. -/
def prTimeZero : Projectile :=
  { id := "p1", ownerId := "enemy", creationTime := 0 }

/-! ### Claim C6: world bootstrap is one-shot -/

theorem createObstacles_noop (s : Scene) (d : List (Option ObstacleData))
    (h : s.obstaclesCreated = true) : createObstaclesFromServer s d = s := by
  unfold createObstaclesFromServer
  simp [h]

/-- C6.  Once the bootstrap has run with assets ready, the flag is true, a
later bootstrap invocation with any obstacle list returns the scene
unchanged (same geometry entities, count and positions included), any call
on a scene whose flag is already true is a no-op, and roster processing
never touches the flag — true is terminal. -/
theorem bootstrap_idempotent (s : Scene) (d1 d2 : List (Option ObstacleData)) :
    (s.obstaclesCreated = true → createObstaclesFromServer s d1 = s) ∧
    (s.assetsLoaded = true → s.obstaclesCreated = false →
      (createObstaclesFromServer s d1).obstaclesCreated = true ∧
      createObstaclesFromServer (createObstaclesFromServer s d1) d2 =
        createObstaclesFromServer s d1) ∧
    (∀ states, (updatePlayerStates s states).obstaclesCreated =
      s.obstaclesCreated) := by
  refine ⟨createObstacles_noop s d1, ?_, ?_⟩
  · intro ha hc
    have hfl : (createObstaclesFromServer s d1).obstaclesCreated = true := by
      unfold createObstaclesFromServer
      simp [ha, hc]
    exact ⟨hfl, createObstacles_noop _ d2 hfl⟩
  · intro states
    show (removeAbsent (states.foldl applyEntry s) _).obstaclesCreated = _
    rw [(removeAbsent_frame _ _).2.1]
    exact foldl_preserve applyEntry Scene.obstaclesCreated
      (fun s2 st => (applyEntry_frame s2 st).2.2.1) states s

/-- C6 witness: on the fresh scene the first bootstrap sets the flag and
the second bootstrap, with a different obstacle list, changes nothing. -/
theorem bootstrap_idempotent_witness :
    (createObstaclesFromServer sceneA []).obstaclesCreated = true ∧
    createObstaclesFromServer (createObstaclesFromServer sceneA [])
        [some { x := some 300, y := some 400 }] =
      createObstaclesFromServer sceneA [] :=
  (bootstrap_idempotent sceneA [] [some { x := some 300, y := some 400 }]).2.1
    rfl rfl

/-! ### Claim C5: projectile time-to-live -/

theorem removeProjById_subset (s : Scene) (id : String) (q : Projectile)
    (h : q ∈ (removeProjById s id).projectiles) : q ∈ s.projectiles := by
  simp only [removeProjById, List.mem_filter] at h
  exact h.1

theorem projHitPlayer_subset (op : Projectile → Bool) (rx ry : Int)
    (s : Scene) (pr q : Projectile)
    (h : q ∈ (projHitPlayer op rx ry s pr).projectiles) : q ∈ s.projectiles := by
  unfold projHitPlayer at h
  split at h
  · have := removeProjById_subset _ _ _ h
    rwa [(handlePlayerHit_frame s s.myAccount pr.ownerId pr.id rx ry).1] at this
  · exact h

theorem projHitObstacle_subset (ob : Projectile → Bool) (s : Scene)
    (pr q : Projectile)
    (h : q ∈ (projHitObstacle ob s pr).projectiles) : q ∈ s.projectiles := by
  unfold projHitObstacle at h
  split at h
  · exact removeProjById_subset _ _ _ h
  · exact h

theorem projExpire_subset (now : Int) (s : Scene) (pr q : Projectile)
    (h : q ∈ (projExpire now s pr).projectiles) : q ∈ s.projectiles := by
  unfold projExpire at h
  split at h
  · exact removeProjById_subset _ _ _ h
  · exact h

theorem projectileStep_subset (now : Int) (op ob : Projectile → Bool)
    (rx ry : Int) (s : Scene) (pr q : Projectile)
    (h : q ∈ (projectileStep now op ob rx ry s pr).projectiles) :
    q ∈ s.projectiles :=
  projHitPlayer_subset op rx ry s pr q
    (projHitObstacle_subset ob _ pr q
      (projExpire_subset now _ pr q h))

theorem projectileStep_stale (now : Int) (op ob : Projectile → Bool)
    (rx ry : Int) (s : Scene) (pr q : Projectile)
    (hst : now - pr.creationTime > 2000)
    (h : q ∈ (projectileStep now op ob rx ry s pr).projectiles) :
    q.id ≠ pr.id := by
  unfold projectileStep projExpire at h
  rw [if_pos hst] at h
  simp only [removeProjById, List.mem_filter, decide_eq_true_eq] at h
  exact h.2

theorem foldl_projectileStep_stale (now : Int) (op ob : Projectile → Bool)
    (rx ry : Int) :
    ∀ (l : List Projectile) (s : Scene) (q : Projectile), q ∈ l →
      now - q.creationTime > 2000 →
      q ∉ (l.foldl (projectileStep now op ob rx ry) s).projectiles := by
  intro l
  induction l with
  | nil => intro s q hq; simp at hq
  | cons pr rest ih =>
    intro s q hq hst
    simp only [List.foldl_cons]
    rcases List.mem_cons.mp hq with hq | hq
    · subst hq
      have hgone : q ∉ (projectileStep now op ob rx ry s q).projectiles := by
        intro hc
        exact projectileStep_stale now op ob rx ry s q q hst hc rfl
      exact foldl_invariant (fun s2 => q ∉ s2.projectiles) _ rest _
        (fun s2 pr2 _ hnot hc =>
          hnot (projectileStep_subset now op ob rx ry s2 pr2 q hc))
        hgone
    · exact ih (projectileStep now op ob rx ry s pr) q hq hst

/-- C5 counterexample.  At a tick evaluated at exactly creation + 2000 ms
(so at a time at or past the lifetime bound claimed), a projectile that
collided with nothing is still in the live set: the removal condition is
strictly greater-than. -/
theorem projectile_ttl_cex :
    (2000 : Int) ≥ prTimeZero.creationTime + 2000 ∧
      prTimeZero ∈ (projectilePass { sceneA with projectiles := [prTimeZero] }
        2000 noOverlap noOverlap 0 0).projectiles := by
  refine ⟨by decide, by decide⟩

/-- C5 amended.  After the per-tick projectile pass runs at time t, every
projectile still live has age at most 2000 ms: a projectile created at t0
is absent for any tick evaluated at time strictly greater than t0 + 2000,
even with zero collisions (at exactly t0 + 2000 it survives the tick). -/
theorem projectile_ttl_amended (s : Scene) (now : Int)
    (op ob : Projectile → Bool) (rx ry : Int) (q : Projectile)
    (hq : q ∈ (projectilePass s now op ob rx ry).projectiles) :
    now - q.creationTime ≤ 2000 := by
  by_contra h
  push_neg at h
  have hmem : q ∈ s.projectiles := by
    by_contra hq0
    exact foldl_invariant (fun s2 => q ∉ s2.projectiles) _ s.projectiles s
      (fun s2 pr _ hnot hc =>
        hnot (projectileStep_subset now op ob rx ry s2 pr q hc))
      hq0 hq
  exact foldl_projectileStep_stale now op ob rx ry s.projectiles s q hmem h hq

/-- C5 witness: a projectile aged 100 ms that survives the pass indeed has
age at most 2000 ms. -/
theorem projectile_ttl_witness :
    (100 : Int) - prTimeZero.creationTime ≤ 2000 :=
  projectile_ttl_amended { sceneA with projectiles := [prTimeZero] } 100
    noOverlap noOverlap 0 0 prTimeZero (by decide)

/-! ### Claim C10: the death handler acts only for the local participant -/

theorem handlePlayerDeath_outbox_died (s : Scene) (pid kid : String)
    (rx ry : Int) (p k : String)
    (h : Msg.playerDied p k ∈ (handlePlayerDeath s pid kid rx ry).outbox) :
    Msg.playerDied p k ∈ s.outbox ∨ (pid = s.myAccount ∧ p = pid ∧ k = kid) := by
  unfold handlePlayerDeath at h
  by_cases hpid : pid = s.myAccount
  · rw [if_pos hpid] at h
    split at h
    · simp only [List.mem_append, List.mem_singleton] at h
      rcases h with h | h
      · exact Or.inl h
      · rw [Msg.playerDied.injEq] at h
        exact Or.inr ⟨hpid, h.1, h.2⟩
    · exact Or.inl h
  · rw [if_neg hpid] at h
    exact Or.inl h

theorem applyHitDamage_outbox_died (s : Scene) (tid aid : String)
    (rx ry : Int) (p k : String)
    (h : Msg.playerDied p k ∈ (applyHitDamage s tid aid rx ry).outbox) :
    Msg.playerDied p k ∈ s.outbox ∨
      (tid = s.myAccount ∧ p = tid ∧ k = aid ∧
        (damageLocal s.player 10).health ≤ 0) := by
  unfold applyHitDamage at h
  by_cases htid : tid = s.myAccount
  · rw [if_pos htid] at h
    split at h
    · rename_i hdead
      rcases handlePlayerDeath_outbox_died _ tid aid rx ry p k h with h2 | h2
      · exact Or.inl h2
      · exact Or.inr ⟨htid, h2.2.1, h2.2.2, hdead⟩
    · exact Or.inl h
  · rw [if_neg htid] at h
    split at h
    · exact Or.inl h
    · exact Or.inl h

theorem handlePlayerHit_outbox_died (s : Scene) (tid aid pjid : String)
    (rx ry : Int) (p k : String)
    (h : Msg.playerDied p k ∈ (handlePlayerHit s tid aid pjid rx ry).outbox) :
    Msg.playerDied p k ∈ s.outbox ∨
      (tid = s.myAccount ∧ p = tid ∧ k = aid ∧
        (damageLocal s.player 10).health ≤ 0) := by
  unfold handlePlayerHit at h
  split at h
  · simp only [List.mem_append, List.mem_singleton] at h
    rcases h with h | h
    · exact applyHitDamage_outbox_died s tid aid rx ry p k h
    · exact absurd h (by simp)
  · exact applyHitDamage_outbox_died s tid aid rx ry p k h

/-- C10.  The death handler is a strict no-op (no state change, no
message) for any non-local playerId; a playerDied message can appear, in
the death handler or the hit handler, only for the local account — in the
hit handler only when the local player was the target and the 10 damage
brought local health to 0 — and the local death respawns the player at
the fresh position and resets them. -/
theorem death_local_only (s : Scene) (pid kid : String) (rx ry : Int) :
    (pid ≠ s.myAccount → handlePlayerDeath s pid kid rx ry = s) ∧
    (∀ p k, Msg.playerDied p k ∈ (handlePlayerDeath s pid kid rx ry).outbox →
      Msg.playerDied p k ∈ s.outbox ∨
        (pid = s.myAccount ∧ p = pid ∧ k = kid)) ∧
    (∀ tid aid pjid p k,
      Msg.playerDied p k ∈ (handlePlayerHit s tid aid pjid rx ry).outbox →
      Msg.playerDied p k ∈ s.outbox ∨
        (tid = s.myAccount ∧ p = tid ∧ k = aid ∧
          (damageLocal s.player 10).health ≤ 0)) ∧
    (pid = s.myAccount →
      (handlePlayerDeath s pid kid rx ry).player =
        resetPlayer { s.player with x := rx, y := ry }) := by
  refine ⟨?_, ?_, ?_, ?_⟩
  · intro hne
    unfold handlePlayerDeath
    rw [if_neg hne]
  · exact handlePlayerDeath_outbox_died s pid kid rx ry
  · intro tid aid pjid p k
    exact handlePlayerHit_outbox_died s tid aid pjid rx ry p k
  · intro hpid
    unfold handlePlayerDeath
    rw [if_pos hpid]
    split <;> rfl

/-- C10 witness: on the fresh scene, a death report for a foreign id is a
strict no-op, and the local death respawns and resets the local player. -/
theorem death_local_only_witness :
    handlePlayerDeath sceneA "z" "k" 1 2 = sceneA ∧
      (handlePlayerDeath sceneA "me" "k" 1 2).player =
        resetPlayer { sceneA.player with x := 1, y := 2 } :=
  ⟨(death_local_only sceneA "z" "k" 1 2).1 (by decide),
    (death_local_only sceneA "me" "k" 1 2).2.2.2 rfl⟩

/-! ### Claim C4: at most one hit per target per attack -/

/-- The pass invariant for a fixed target T, relative to the scene s0 the
pass started from: at most one grant of T so far, every granted T is
recorded in hitPlayers, and a T already in s0's hit set is never granted
and stays recorded. -/
def meleeInv (T : String) (s0 : Scene) (p : Scene × List String) : Prop :=
  p.2.count T ≤ 1 ∧ (T ∈ p.2 → T ∈ p.1.hitPlayers) ∧
    (T ∈ s0.hitPlayers → T ∈ p.1.hitPlayers ∧ p.2.count T = 0)

theorem meleeStep_inv (ov : String → Bool) (rx ry : Int) (T : String)
    (s0 : Scene) (acc : Scene × List String) (id : String)
    (h : meleeInv T s0 acc) : meleeInv T s0 (meleeStep ov rx ry acc id) := by
  obtain ⟨hcount, hmem, hstart⟩ := h
  unfold meleeStep
  by_cases hin : id ∈ acc.1.hitPlayers
  · rw [if_pos hin]
    exact ⟨hcount, hmem, hstart⟩
  · rw [if_neg hin]
    by_cases hov : ov id = true
    · rw [if_pos hov]
      have hhp :
          (handlePlayerHit { acc.1 with hitPlayers := acc.1.hitPlayers ++ [id] }
            id acc.1.myAccount "melee_attack" rx ry).hitPlayers =
            acc.1.hitPlayers ++ [id] :=
        (handlePlayerHit_frame _ id acc.1.myAccount "melee_attack" rx ry).2.1
    -- the granted scene records id; case on whether the grant is for T
      by_cases hid : id = T
      · subst hid
        have hTnot : id ∉ acc.2 := fun hc => hin (hmem hc)
        have hzero : List.count id acc.2 = 0 := List.count_eq_zero.mpr hTnot
        refine ⟨?_, ?_, ?_⟩
        · show List.count id (acc.2 ++ [id]) ≤ 1
          simp [List.count_append, hzero, List.count_cons]
        · intro _
          show id ∈ _
          rw [hhp]
          simp
        · intro hT0
          exact absurd ((hstart hT0).1) hin
      · have hcnt0 : List.count T [id] = 0 :=
          List.count_eq_zero.mpr
            (by simp only [List.mem_singleton]; exact fun hc => hid hc.symm)
        refine ⟨?_, ?_, ?_⟩
        · show List.count T (acc.2 ++ [id]) ≤ 1
          simp only [List.count_append, hcnt0]
          omega
        · intro hT
          show T ∈ _
          rw [hhp]
          simp only [List.mem_append] at hT ⊢
          rcases hT with hT | hT
          · exact Or.inl (hmem hT)
          · simp only [List.mem_singleton] at hT
            exact absurd hT.symm hid
        · intro hT0
          obtain ⟨hT1, hT2⟩ := hstart hT0
          constructor
          · show T ∈ _
            rw [hhp]
            simp [hT1]
          · show List.count T (acc.2 ++ [id]) = 0
            simp only [List.count_append, hcnt0]
            omega
    · rw [if_neg hov]
      exact ⟨hcount, hmem, hstart⟩

theorem meleePass_inv (s : Scene) (ov : String → Bool) (rx ry : Int)
    (T : String) : meleeInv T s (meleePass s ov rx ry) := by
  unfold meleePass
  split
  · exact foldl_invariant (meleeInv T s) (meleeStep ov rx ry)
      (keysOf s.otherPlayers) (s, [])
      (fun acc id _ h => meleeStep_inv ov rx ry T s acc id h)
      ⟨by simp, by simp, fun h => ⟨h, by simp⟩⟩
  · exact ⟨by simp, by simp, fun h => ⟨h, by simp⟩⟩

theorem meleeTicks_inv (rx ry : Int) (T : String) :
    ∀ (ovs : List (String → Bool)) (s : Scene),
      (meleeTicks rx ry s ovs).2.count T ≤ 1 ∧
        (T ∈ (meleeTicks rx ry s ovs).2 →
          T ∈ (meleeTicks rx ry s ovs).1.hitPlayers) ∧
        (T ∈ s.hitPlayers →
          T ∈ (meleeTicks rx ry s ovs).1.hitPlayers ∧
            (meleeTicks rx ry s ovs).2.count T = 0) := by
  intro ovs
  induction ovs with
  | nil =>
    intro s
    exact ⟨by simp [meleeTicks], by simp [meleeTicks],
      fun h => ⟨by simpa [meleeTicks] using h, by simp [meleeTicks]⟩⟩
  | cons ov rest ih =>
    intro s
    obtain ⟨c1, m1, st1⟩ := meleePass_inv s ov rx ry T
    obtain ⟨c2, m2, st2⟩ := ih (meleePass s ov rx ry).1
    simp only [meleeTicks, List.count_append, List.mem_append]
    refine ⟨?_, ?_, ?_⟩
    · by_cases hT1 : T ∈ (meleePass s ov rx ry).2
      · have := (st2 (m1 hT1)).2
        omega
      · have : (meleePass s ov rx ry).2.count T = 0 :=
          List.count_eq_zero.mpr hT1
        omega
    · rintro (hT | hT)
      · exact (st2 (m1 hT)).1
      · exact m2 hT
    · intro hT0
      obtain ⟨hA, hB⟩ := st1 hT0
      obtain ⟨hC, hD⟩ := st2 hA
      exact ⟨hC, by omega⟩

/-- C4.  Spawning an attack empties the hit set, and over any number of
subsequent per-tick overlap passes with any oracles, a given target id is
granted a hit (recorded in hitPlayers and routed through handlePlayerHit)
at most once for the whole attack. -/
theorem melee_hit_once (s : Scene) (now : Int)
    (hs : s.serverInitialized = true) :
    (handleSpacebarAttack s now).hitPlayers = [] ∧
    ∀ (rx ry : Int) (ovs : List (String → Bool)) (T : String),
      ((meleeTicks rx ry (handleSpacebarAttack s now) ovs).2).count T ≤ 1 := by
  constructor
  · unfold handleSpacebarAttack
    rw [if_neg (not_not_intro hs)]
  · intro rx ry ovs T
    exact (meleeTicks_inv rx ry T ovs (handleSpacebarAttack s now)).1

/-- A tracked remote player used in concrete scenes. -/
def playerP1 : Player :=
  { x := 5, y := 5, health := 100, name := "P1", colorIndex := 1 }

/-- An overlap oracle that always reports a collision. -/
def allOverlap : String → Bool := fun _ => true

/-- C4 witness: with one tracked player inside the hitbox on two
consecutive ticks, the target is granted at most one hit. -/
theorem melee_hit_once_witness :
    (handleSpacebarAttack { sceneA with otherPlayers := [("p1", playerP1)] }
        0).hitPlayers = [] ∧
      ((meleeTicks 0 0
          (handleSpacebarAttack { sceneA with otherPlayers := [("p1", playerP1)] } 0)
          [allOverlap, allOverlap]).2).count "p1" ≤ 1 :=
  ⟨(melee_hit_once { sceneA with otherPlayers := [("p1", playerP1)] } 0 rfl).1,
    (melee_hit_once { sceneA with otherPlayers := [("p1", playerP1)] } 0 rfl).2
      0 0 [allOverlap, allOverlap] "p1"⟩

/-! ### Lemmas on the roster snapshot machinery -/

theorem keysOf_mapSet_of_isSome {α : Type} :
    ∀ (m : List (String × α)) (key : String) (v : α),
      (lookupMap m key).isSome → keysOf (mapSet m key v) = keysOf m := by
  intro m
  induction m with
  | nil => intro key v h; simp [lookupMap] at h
  | cons p rest ih =>
    intro key v h
    obtain ⟨k, w⟩ := p
    by_cases hk : k = key
    · subst hk
      simp [mapSet, keysOf]
    · simp only [lookupMap] at h
      rw [if_neg hk] at h
      simp only [mapSet, keysOf]
      rw [if_neg hk]
      simp only [List.map_cons]
      rw [show List.map Prod.fst (mapSet rest key v) = List.map Prod.fst rest
        from ih key v h]

theorem lookupMap_filterA {α : Type} (ids : List String) (X : String)
    (hX : X ∈ ids) :
    ∀ m : List (String × α),
      lookupMap (m.filter (fun p => decide (p.1 ∈ ids))) X = lookupMap m X := by
  intro m
  induction m with
  | nil => rfl
  | cons p rest ih =>
    obtain ⟨k, w⟩ := p
    by_cases hk : k = X
    · subst hk
      rw [List.filter_cons_of_pos (by simpa using hX)]
      simp [lookupMap]
    · by_cases hkin : k ∈ ids
      · rw [List.filter_cons_of_pos (by simpa using hkin)]
        simp only [lookupMap, hk, if_neg, ne_eq]
        exact ih
      · rw [List.filter_cons_of_neg (by simpa using hkin)]
        simp only [lookupMap, hk, if_neg, ne_eq]
        exact ih

theorem lookupMap_filterB {α : Type} (rem : List String) (X : String)
    (hX : X ∉ rem) :
    ∀ m : List (String × α),
      lookupMap (m.filter (fun p => decide (p.1 ∉ rem))) X = lookupMap m X := by
  intro m
  induction m with
  | nil => rfl
  | cons p rest ih =>
    obtain ⟨k, w⟩ := p
    by_cases hk : k = X
    · subst hk
      rw [List.filter_cons_of_pos (by simpa using hX)]
      simp [lookupMap]
    · by_cases hkin : k ∈ rem
      · rw [List.filter_cons_of_neg (by simpa using hkin)]
        simp only [lookupMap, hk, if_neg, ne_eq]
        exact ih
      · rw [List.filter_cons_of_pos (by simpa using hkin)]
        simp only [lookupMap, hk, if_neg, ne_eq]
        exact ih

theorem lookupMap_filterB_none {α : Type} (rem : List String) (X : String)
    (hX : X ∈ rem) :
    ∀ m : List (String × α),
      lookupMap (m.filter (fun p => decide (p.1 ∉ rem))) X = none := by
  intro m
  induction m with
  | nil => rfl
  | cons p rest ih =>
    obtain ⟨k, w⟩ := p
    by_cases hkin : k ∈ rem
    · rw [List.filter_cons_of_neg (by simpa using hkin)]
      exact ih
    · rw [List.filter_cons_of_pos (by simpa using hkin)]
      have hk : k ≠ X := fun hc => hkin (hc ▸ hX)
      simp only [lookupMap, hk, if_neg, ne_eq]
      exact ih

theorem keysOf_filterA_mem {α : Type} (m : List (String × α))
    (ids : List String) (X : String) :
    X ∈ keysOf (m.filter (fun p => decide (p.1 ∈ ids))) ↔
      X ∈ keysOf m ∧ X ∈ ids := by
  simp only [keysOf, List.mem_map, List.mem_filter, decide_eq_true_eq]
  constructor
  · rintro ⟨p, ⟨hp, hin⟩, he⟩
    exact ⟨⟨p, hp, he⟩, he ▸ hin⟩
  · rintro ⟨⟨p, hp, he⟩, hin⟩
    exact ⟨p, ⟨hp, he ▸ hin⟩, he⟩

theorem keysOf_filterB_mem {α : Type} (m : List (String × α))
    (rem : List String) (X : String) :
    X ∈ keysOf (m.filter (fun p => decide (p.1 ∉ rem))) ↔
      X ∈ keysOf m ∧ X ∉ rem := by
  simp only [keysOf, List.mem_map, List.mem_filter, decide_eq_true_eq]
  constructor
  · rintro ⟨p, ⟨hp, hin⟩, he⟩
    exact ⟨⟨p, hp, he⟩, he ▸ hin⟩
  · rintro ⟨⟨p, hp, he⟩, hin⟩
    exact ⟨p, ⟨hp, he ▸ hin⟩, he⟩

theorem applyEntry_keys_mem (s : Scene) (st : PlayerState) (id : String) :
    id ∈ keysOf (applyEntry s st).otherPlayers ↔
      id ∈ keysOf s.otherPlayers ∨
        (id = st.account ∧ st.account ≠ s.myAccount ∧
          st.x.isSome = true ∧ st.y.isSome = true) := by
  unfold applyEntry
  by_cases hacc : st.account = s.myAccount
  · rw [if_pos hacc]
    simp [hacc]
  · rw [if_neg hacc]
    rcases hx : st.x with _ | x
    · simp [hx, hacc]
    · rcases hy : st.y with _ | y
      · simp [hx, hy, hacc]
      · simp only [hx, hy]
        cases hl : lookupMap s.otherPlayers st.account with
        | some p =>
          simp only [keysOf_mapSet_mem, hacc, ne_eq, not_false_iff,
            Option.isSome_some, and_true, true_and]
        | none =>
          simp only [keysOf_mapSet_mem, hacc, ne_eq, not_false_iff,
            Option.isSome_some, and_true, true_and]

theorem foldl_keys_mem (states : List PlayerState) :
    ∀ (s : Scene) (id : String),
      id ∈ keysOf ((states.foldl applyEntry s).otherPlayers) ↔
        id ∈ keysOf s.otherPlayers ∨
          ∃ st ∈ states, id = st.account ∧ st.account ≠ s.myAccount ∧
            st.x.isSome = true ∧ st.y.isSome = true := by
  induction states with
  | nil => intro s id; simp
  | cons st rest ih =>
    intro s id
    simp only [List.foldl_cons]
    rw [ih, applyEntry_keys_mem, (applyEntry_frame s st).1]
    constructor
    · rintro ((h | h) | ⟨st2, hst2, h⟩)
      · exact Or.inl h
      · exact Or.inr ⟨st, List.mem_cons_self st rest, h⟩
      · exact Or.inr ⟨st2, List.mem_cons_of_mem st hst2, h⟩
    · rintro (h | ⟨st2, hst2, h⟩)
      · exact Or.inl (Or.inl h)
      · rcases List.mem_cons.mp hst2 with he | he
        · subst he
          exact Or.inl (Or.inr h)
        · exact Or.inr ⟨st2, he, h⟩

theorem removeAbsent_keys_mem (s : Scene) (ids : List String) (id : String) :
    id ∈ keysOf (removeAbsent s ids).otherPlayers ↔
      id ∈ keysOf s.otherPlayers ∧ id ∈ ids :=
  keysOf_filterA_mem s.otherPlayers ids id

theorem applyHitDamage_keys (s : Scene) (tid aid : String) (rx ry : Int) :
    keysOf (applyHitDamage s tid aid rx ry).otherPlayers =
      keysOf s.otherPlayers := by
  unfold applyHitDamage
  split
  · split
    · exact congrArg keysOf
        (handlePlayerDeath_frame { s with player := damageLocal s.player 10 }
          tid aid rx ry).2.2.1
    · rfl
  · cases hl : lookupMap s.otherPlayers tid with
    | some tp =>
      simp only [hl]
      exact keysOf_mapSet_of_isSome s.otherPlayers tid (damageRemote tp 10)
        (by simp [hl])
    | none => simp only [hl]

theorem handlePlayerHit_keys (s : Scene) (tid aid pjid : String) (rx ry : Int) :
    keysOf (handlePlayerHit s tid aid pjid rx ry).otherPlayers =
      keysOf s.otherPlayers := by
  unfold handlePlayerHit
  split
  · exact applyHitDamage_keys s tid aid rx ry
  · exact applyHitDamage_keys s tid aid rx ry

theorem applyEntry_of_missing (s : Scene) (st : PlayerState)
    (h : st.x = none ∨ st.y = none) : applyEntry s st = s := by
  unfold applyEntry
  by_cases hacc : st.account = s.myAccount
  · rw [if_pos hacc]
  · rw [if_neg hacc]
    rcases h with h | h
    · simp [h]
    · rcases hx : st.x with _ | x
      · simp [hx]
      · simp [hx, h]

theorem applyEntry_lookup_ne (s : Scene) (st : PlayerState) (X : String)
    (hne : X ≠ st.account) :
    lookupMap (applyEntry s st).otherPlayers X = lookupMap s.otherPlayers X := by
  unfold applyEntry
  by_cases hacc : st.account = s.myAccount
  · rw [if_pos hacc]
  · rw [if_neg hacc]
    rcases hx : st.x with _ | x
    · simp [hx]
    · rcases hy : st.y with _ | y
      · simp [hx, hy]
      · simp only [hx, hy]
        cases hl : lookupMap s.otherPlayers st.account with
        | some p =>
          simp only [hl]
          exact lookupMap_mapSet_ne _ _ _ _ hne
        | none =>
          simp only [hl]
          exact lookupMap_mapSet_ne _ _ _ _ hne

theorem applyEntry_overlay_hit (s : Scene) (st : PlayerState) (X : String)
    (dh x y : Int) (hacc : st.account = X) (hne : X ≠ s.myAccount)
    (hx : st.x = some x) (hy : st.y = some y)
    (hd : lookupMap s.damagedPlayers X = some dh)
    (p : Player) (hk : lookupMap s.otherPlayers X = some p) :
    lookupMap (applyEntry s st).otherPlayers X =
      some (setHealth (moveTo p x y) dh) := by
  unfold applyEntry
  simp only [hacc]
  rw [if_neg hne]
  simp only [hx, hy, hk, hd]
  exact lookupMap_mapSet_self _ _ _

/-- The overlay invariant carried through snapshot processing for a fixed
remote id X with stored overlay health dh. -/
def overlayInv (A X : String) (dh : Int) (s2 : Scene) : Prop :=
  s2.myAccount = A ∧ lookupMap s2.damagedPlayers X = some dh ∧
    ∃ p, lookupMap s2.otherPlayers X = some p ∧ p.health = dh

theorem applyEntry_overlayInv (A X : String) (dh : Int) (hXA : X ≠ A)
    (hdh : 0 ≤ dh) (s2 : Scene) (st : PlayerState)
    (h : overlayInv A X dh s2) : overlayInv A X dh (applyEntry s2 st) := by
  obtain ⟨hma, hd2, p, hp, hph⟩ := h
  refine ⟨?_, ?_, ?_⟩
  · rw [(applyEntry_frame s2 st).1]; exact hma
  · rw [(applyEntry_frame s2 st).2.1]; exact hd2
  · by_cases hsa : st.account = X
    · rcases hxo : st.x with _ | x
      · rw [applyEntry_of_missing s2 st (Or.inl hxo)]
        exact ⟨p, hp, hph⟩
      · rcases hyo : st.y with _ | y
        · rw [applyEntry_of_missing s2 st (Or.inr hyo)]
          exact ⟨p, hp, hph⟩
        · have hXm : X ≠ s2.myAccount := by rw [hma]; exact hXA
          refine ⟨setHealth (moveTo p x y) dh,
            applyEntry_overlay_hit s2 st X dh x y hsa hXm hxo hyo hd2 p hp, ?_⟩
          simp only [setHealth]
          omega
    · rw [applyEntry_lookup_ne s2 st X (fun hc => hsa hc.symm)]
      exact ⟨p, hp, hph⟩

/-! ### Claim C1: registry membership after a snapshot -/

/-- A snapshot entry with both coordinates missing. -/
def stNoXY : PlayerState :=
  { account := "a", x := none, y := none, name := none, health := none }

/-- A complete snapshot entry for a fresh id. -/
def stA : PlayerState :=
  { account := "a", x := some 10, y := some 20, name := some "A",
    health := some 80 }

/-- C1 counterexample.  On the fresh scene, a snapshot whose only entry
names an unknown id but lacks x and y leaves the registry empty, although
the claimed equation demands that the id be registered: skipped entries do
not reach the creation path, so membership can fall short of the
snapshot's non-local id set. -/
theorem roster_membership_cex :
    ("a" ∈ [stNoXY].map PlayerState.account ∧ "a" ≠ sceneA.myAccount) ∧
      "a" ∉ keysOf (updatePlayerStates sceneA [stNoXY]).otherPlayers := by
  refine ⟨⟨by decide, by decide⟩, by decide⟩

/-- C1 amended.  When every non-local snapshot entry naming an id not
already registered carries both coordinates (entries missing x or y are
skipped without failing the batch, so they can neither create nor update),
registry membership after updatePlayerStates equals exactly the snapshot's
id set minus the local id. -/
theorem roster_membership (s : Scene) (states : List PlayerState)
    (hinv : s.myAccount ∉ keysOf s.otherPlayers)
    (hcomplete : ∀ st ∈ states, st.account ≠ s.myAccount →
      st.account ∉ keysOf s.otherPlayers →
      st.x.isSome = true ∧ st.y.isSome = true)
    (id : String) :
    id ∈ keysOf (updatePlayerStates s states).otherPlayers ↔
      id ∈ states.map PlayerState.account ∧ id ≠ s.myAccount := by
  unfold updatePlayerStates
  rw [removeAbsent_keys_mem, foldl_keys_mem]
  constructor
  · rintro ⟨h1 | ⟨st, hst, he, hne, _, _⟩, h2⟩
    · exact ⟨h2, fun hc => hinv (hc ▸ h1)⟩
    · exact ⟨h2, fun hc => hne (he ▸ hc)⟩
  · rintro ⟨hacc, hne⟩
    obtain ⟨st, hst, he⟩ : ∃ st ∈ states, st.account = id := by
      simpa using hacc
    refine ⟨?_, hacc⟩
    by_cases hk : id ∈ keysOf s.otherPlayers
    · exact Or.inl hk
    · have hxy := hcomplete st hst (by rw [he]; exact hne) (by rw [he]; exact hk)
      exact Or.inr ⟨st, hst, he.symm, by rw [he]; exact hne, hxy.1, hxy.2⟩

/-- C1 witness: a complete entry for a fresh id lands in the registry and
the equation holds at that id. -/
theorem roster_membership_witness :
    "a" ∈ keysOf (updatePlayerStates sceneA [stA]).otherPlayers ↔
      "a" ∈ [stA].map PlayerState.account ∧ "a" ≠ sceneA.myAccount :=
  roster_membership sceneA [stA] (by decide) (by decide) "a"

/-! ### Claim C9: the local id never enters the remote collection -/

/-- C9.  From any scene in which the local account is not a key of the
remote-player collection, neither roster-snapshot processing (which skips
entries for the local account before any insertion) nor hit handling
(which only updates existing keys) can make it one. -/
theorem local_never_remote (s : Scene) (states : List PlayerState)
    (hinv : s.myAccount ∉ keysOf s.otherPlayers) :
    s.myAccount ∉ keysOf (updatePlayerStates s states).otherPlayers ∧
      ∀ (tid aid pjid : String) (rx ry : Int),
        s.myAccount ∉ keysOf (handlePlayerHit s tid aid pjid rx ry).otherPlayers := by
  constructor
  · intro hc
    unfold updatePlayerStates at hc
    rw [removeAbsent_keys_mem, foldl_keys_mem] at hc
    rcases hc.1 with h | ⟨st, _, he, hne, _, _⟩
    · exact hinv h
    · exact hne he.symm
  · intro tid aid pjid rx ry hc
    rw [handlePlayerHit_keys] at hc
    exact hinv hc

/-- C9 witness: on the fresh scene, after a snapshot that creates a remote
player and after a hit on that player, the local id is still absent. -/
theorem local_never_remote_witness :
    sceneA.myAccount ∉ keysOf (updatePlayerStates sceneA [stA]).otherPlayers ∧
      sceneA.myAccount ∉
        keysOf (handlePlayerHit sceneA "p1" "x" "pj" 0 0).otherPlayers :=
  ⟨(local_never_remote sceneA [stA] (by decide)).1,
    (local_never_remote sceneA [stA] (by decide)).2 "p1" "x" "pj" 0 0⟩

/-! ### Claim C2: the damagedPlayers overlay is a sticky override -/

/-- C2.  Once an overlay entry (X, dh) is stored, snapshot processing
resolves X's health to dh whenever an entry for X is applied, whatever
health the snapshot reports; the entry survives every snapshot that still
lists X, and it is dropped exactly when X leaves the roster (together with
the registry entry) — never because of the snapshot's content. -/
theorem overlay_sticky (s : Scene) (states : List PlayerState) (X : String)
    (dh : Int) (hA : X ≠ s.myAccount) (hdh : 0 ≤ dh)
    (hd : lookupMap s.damagedPlayers X = some dh)
    (hk : X ∈ keysOf s.otherPlayers) :
    (X ∈ states.map PlayerState.account →
      lookupMap (updatePlayerStates s states).damagedPlayers X = some dh ∧
        X ∈ keysOf (updatePlayerStates s states).otherPlayers) ∧
    (X ∉ states.map PlayerState.account →
      lookupMap (updatePlayerStates s states).damagedPlayers X = none ∧
        X ∉ keysOf (updatePlayerStates s states).otherPlayers) ∧
    ((∃ st ∈ states, st.account = X ∧ st.x.isSome = true ∧ st.y.isSome = true) →
      ∃ p, lookupMap (updatePlayerStates s states).otherPlayers X = some p ∧
        p.health = dh) := by
  have hd1 : (states.foldl applyEntry s).damagedPlayers = s.damagedPlayers :=
    foldl_applyEntry_damaged states s
  have hk1 : X ∈ keysOf (states.foldl applyEntry s).otherPlayers :=
    (foldl_keys_mem states s X).mpr (Or.inl hk)
  refine ⟨?_, ?_, ?_⟩
  · intro hin
    have hnotrem : X ∉ keysOf ((states.foldl applyEntry s).otherPlayers.filter
        (fun q => decide (q.1 ∉ states.map PlayerState.account))) := by
      rw [keysOf_filterB_mem]
      rintro ⟨_, hno⟩
      exact hno hin
    constructor
    · show lookupMap ((states.foldl applyEntry s).damagedPlayers.filter
        (fun p => decide (p.1 ∉
          keysOf ((states.foldl applyEntry s).otherPlayers.filter
            (fun q => decide (q.1 ∉ states.map PlayerState.account)))))) X =
        some dh
      rw [lookupMap_filterB _ X hnotrem, hd1]
      exact hd
    · exact (removeAbsent_keys_mem _ _ X).mpr ⟨hk1, hin⟩
  · intro hout
    have hinrem : X ∈ keysOf ((states.foldl applyEntry s).otherPlayers.filter
        (fun q => decide (q.1 ∉ states.map PlayerState.account))) :=
      (keysOf_filterB_mem _ _ X).mpr ⟨hk1, hout⟩
    constructor
    · show lookupMap ((states.foldl applyEntry s).damagedPlayers.filter
        (fun p => decide (p.1 ∉
          keysOf ((states.foldl applyEntry s).otherPlayers.filter
            (fun q => decide (q.1 ∉ states.map PlayerState.account)))))) X = none
      exact lookupMap_filterB_none _ X hinrem _
    · intro hc
      exact hout ((removeAbsent_keys_mem _ _ X).mp hc).2
  · rintro ⟨st, hst, hacc2, hxs, hys⟩
    have hin : X ∈ states.map PlayerState.account :=
      List.mem_map.mpr ⟨st, hst, hacc2⟩
    obtain ⟨l1, l2, hsplit⟩ := List.append_of_mem hst
    obtain ⟨x, hxo⟩ := Option.isSome_iff_exists.mp hxs
    obtain ⟨y, hyo⟩ := Option.isSome_iff_exists.mp hys
    have hmid_ma : (l1.foldl applyEntry s).myAccount = s.myAccount :=
      foldl_applyEntry_myAccount l1 s
    have hmid_d : (l1.foldl applyEntry s).damagedPlayers = s.damagedPlayers :=
      foldl_applyEntry_damaged l1 s
    have hmid_k : X ∈ keysOf (l1.foldl applyEntry s).otherPlayers :=
      (foldl_keys_mem l1 s X).mpr (Or.inl hk)
    obtain ⟨p, hp⟩ := Option.isSome_iff_exists.mp
      ((lookupMap_isSome_iff _ X).mpr hmid_k)
    have hstep := applyEntry_overlay_hit (l1.foldl applyEntry s) st X dh x y
      hacc2 (by rw [hmid_ma]; exact hA) hxo hyo (by rw [hmid_d]; exact hd) p hp
    have hQ0 : overlayInv s.myAccount X dh (applyEntry (l1.foldl applyEntry s) st) := by
      refine ⟨?_, ?_, setHealth (moveTo p x y) dh, hstep, ?_⟩
      · rw [(applyEntry_frame _ st).1]
        exact hmid_ma
      · rw [(applyEntry_frame _ st).2.1, hmid_d]
        exact hd
      · simp only [setHealth]
        omega
    have hQ2 : overlayInv s.myAccount X dh
        (l2.foldl applyEntry (applyEntry (l1.foldl applyEntry s) st)) :=
      foldl_invariant (overlayInv s.myAccount X dh) applyEntry l2 _
        (fun s2 st2 _ h => applyEntry_overlayInv s.myAccount X dh hA hdh s2 st2 h)
        hQ0
    have hQ : overlayInv s.myAccount X dh (states.foldl applyEntry s) := by
      rw [hsplit, List.foldl_append, List.foldl_cons]
      exact hQ2
    obtain ⟨_, _, p2, hp2, hp2h⟩ := hQ
    refine ⟨p2, ?_, hp2h⟩
    show lookupMap ((states.foldl applyEntry s).otherPlayers.filter
      (fun q => decide (q.1 ∈ states.map PlayerState.account))) X = some p2
    rw [lookupMap_filterA _ X hin]
    exact hp2

/-- A scene tracking the remote player p1 with an overlay entry of 90. -/
def c2Scene : Scene :=
  { sceneA with otherPlayers := [("p1", playerP1)],
                damagedPlayers := [("p1", 90)] }

/-- A snapshot entry reporting full health for p1. -/
def st100 : PlayerState :=
  { account := "p1", x := some 7, y := some 8, name := none,
    health := some 100 }

/-- C2 witness: a snapshot reporting health 100 for p1 still resolves to
the overlay value 90. -/
theorem overlay_sticky_witness :
    ∃ p, lookupMap (updatePlayerStates c2Scene [st100]).otherPlayers "p1" =
      some p ∧ p.health = 90 :=
  (overlay_sticky c2Scene [st100] "p1" 90 (by decide) (by decide) rfl
      (by decide)).2.2 ⟨st100, by decide, rfl, rfl, rfl⟩

/-! ### Claim C3: health resolution without an overlay entry -/

/-- A scene tracking p1 with no overlay entry. -/
def c3Scene : Scene :=
  { sceneA with otherPlayers := [("p1", playerP1)] }

/-- A snapshot entry reporting health 0 for p1. -/
def stZero : PlayerState :=
  { account := "p1", x := some 1, y := some 2, name := none,
    health := some 0 }

/-- A snapshot entry reporting health 55 for p1. -/
def st55 : PlayerState :=
  { account := "p1", x := some 1, y := some 2, name := none,
    health := some 55 }

/-- C3 counterexample.  For a known player with no overlay entry, a
snapshot that supplies health 0 yields stored health 100, not the supplied
0: the JS expression health-or-100 treats a supplied 0 as absent. -/
theorem snapshot_health_cex :
    stZero.health = some 0 ∧
      (lookupMap (updatePlayerStates c3Scene [stZero]).otherPlayers "p1").map
        Player.health = some 100 := by
  refine ⟨rfl, by decide⟩

/-- C3 amended.  For a known remote participant with no overlay entry, a
processed snapshot entry sets health to the supplied value whenever that
value is a positive integer, and to the default 100 both when the health
field is absent and when the supplied value is 0 (0 is falsy, so it falls
back to the default). -/
theorem snapshot_health_amended (s : Scene) (st : PlayerState) (X : String)
    (p : Player) (x y : Int) (hA : X ≠ s.myAccount)
    (hd : lookupMap s.damagedPlayers X = none)
    (hkp : lookupMap s.otherPlayers X = some p)
    (hacc : st.account = X) (hx : st.x = some x) (hy : st.y = some y) :
    ∃ q, lookupMap (updatePlayerStates s [st]).otherPlayers X = some q ∧
      (∀ h, st.health = some h → 0 < h → q.health = h) ∧
      (st.health = some 0 → q.health = 100) ∧
      (st.health = none → q.health = 100) := by
  have hlook : lookupMap (applyEntry s st).otherPlayers X =
      some (setHealth (moveTo p x y) (healthOr100 st.health)) := by
    unfold applyEntry
    simp only [hacc]
    rw [if_neg hA]
    simp only [hx, hy, hkp, hd]
    exact lookupMap_mapSet_self _ _ _
  have hin : X ∈ [st].map PlayerState.account := by
    simp [hacc]
  refine ⟨setHealth (moveTo p x y) (healthOr100 st.health), ?_, ?_, ?_, ?_⟩
  · show lookupMap (((List.foldl applyEntry s [st]).otherPlayers).filter
      (fun q => decide (q.1 ∈ [st].map PlayerState.account))) X = _
    rw [lookupMap_filterA _ X hin]
    simpa using hlook
  · intro h hh hpos
    simp only [setHealth, healthOr100, hh]
    rw [if_neg (by omega)]
    omega
  · intro hh
    simp only [setHealth, healthOr100, hh]
    norm_num
  · intro hh
    simp only [setHealth, healthOr100, hh]
    norm_num

/-- C3 witness: a snapshot supplying health 55 for the overlay-free p1
stores exactly 55. -/
theorem snapshot_health_witness :
    (lookupMap (updatePlayerStates c3Scene [st55]).otherPlayers "p1").map
      Player.health = some 55 := by
  obtain ⟨q, hq, hpos, _, _⟩ :=
    snapshot_health_amended c3Scene st55 "p1" playerP1 1 2 (by decide) rfl
      (by decide) rfl rfl rfl
  rw [hq]
  simp [hpos 55 rfl (by norm_num)]

end MopgArena
